import Mathlib

set_option maxHeartbeats 1000000
set_option linter.unusedVariables false

/-!
Verification of the Terbox link-board repository.

The store (src/database.py) keeps one SQLite table `file_board`; we embed it
as a list of records plus the autoincrement counter.  Each store operation
takes a `fault : Bool` flag modelling whether the underlying storage layer
raises `sqlite3.Error` during the operation (the `except sqlite3.Error`
branches of the Python code).  The resolver (src/terabox_utils.py) is embedded
with the wall-clock second `t : Nat` (the Python code reads `int(time.time())`)
as an explicit parameter.
-/

namespace Terbox

/-- One row of the `file_board` table (schema in `init_db`, src/database.py). -/
structure LinkRecord where
  id : Nat
  user_id : Int
  chat_id : Int
  description : String
  terabox_link : String
  timestamp : Nat
deriving DecidableEq

/-- The database state: the rows of `file_board` in insertion order, plus the
`AUTOINCREMENT` counter for the next `id`. -/
structure DB where
  rows : List LinkRecord
  nextId : Nat
deriving DecidableEq

/-- A row of the projection `SELECT id, description, timestamp` used by
`list_links` and `search_links`. -/
structure ListRow where
  id : Nat
  description : String
  timestamp : Nat
deriving DecidableEq

/-- A row of the projection `SELECT id, description, terabox_link` used by
`get_link_by_id`. -/
structure DetailRow where
  id : Nat
  description : String
  terabox_link : String
deriving DecidableEq

/-- The ordering used by `ORDER BY timestamp DESC`: later timestamps first. -/
def tsGE (a b : LinkRecord) : Prop := b.timestamp ≤ a.timestamp

instance : DecidableRel tsGE :=
  fun a b => inferInstanceAs (Decidable (b.timestamp ≤ a.timestamp))

instance : IsTotal LinkRecord tsGE := ⟨fun a b => Nat.le_total b.timestamp a.timestamp⟩

instance : IsTrans LinkRecord tsGE := ⟨fun _ _ _ h1 h2 => Nat.le_trans h2 h1⟩

/-- `ORDER BY timestamp DESC`: sort the rows with later timestamps first. -/
def orderRows (rows : List LinkRecord) : List LinkRecord := List.insertionSort tsGE rows

/-- SQLite `LIKE` pattern matching on character lists: `%` matches any
sequence, `_` matches any single character, and ordinary characters compare
case-insensitively on ASCII (SQLite folds only A–Z, as does `Char.toLower`). -/
def likeChars : List Char → List Char → Bool
  | [], s => s.isEmpty
  | p :: ps, s =>
    if p = '%' then s.tails.any (fun t => likeChars ps t)
    else
      match s with
      | [] => false
      | c :: cs => (if p = '_' then true else p.toLower == c.toLower) && likeChars ps cs

/-- SQLite `LIKE`: does string `s` match pattern `pat`? -/
def sqlLike (pat s : String) : Bool := likeChars pat.data s.data

/-- The pattern built by `search_links`: `search_term = f"%{query}%"`. -/
def search_term (query : String) : String := "%" ++ query ++ "%"

/-- `add_link` (src/database.py, lines 55–71): inserts a row; returns `True` on
success and `False` both when the `UNIQUE` constraint on `terabox_link` fires
(`sqlite3.IntegrityError`) and on any other `sqlite3.Error` (`fault = true`).
The second component is the database state after the operation (the
`db_connect` context manager rolls back on error, so failures leave it
unchanged). -/
def add_link (db : DB) (user_id chat_id : Int) (description terabox_link : String)
    (now : Nat) (fault : Bool) : Bool × DB :=
  if fault then (false, db)
  else if db.rows.any (fun r => r.terabox_link == terabox_link) then (false, db)
  else (true, ⟨db.rows ++ [⟨db.nextId, user_id, chat_id, description, terabox_link, now⟩],
               db.nextId + 1⟩)

/-- Projection of a stored row to the columns returned by `list_links` and
`search_links`. -/
def toListRow (r : LinkRecord) : ListRow := ⟨r.id, r.description, r.timestamp⟩

/-- `list_links` (src/database.py, lines 73–88):
`SELECT id, description, timestamp FROM file_board ORDER BY timestamp DESC LIMIT ?`;
on `sqlite3.Error` it returns the empty list. -/
def list_links (db : DB) (limit : Nat) (fault : Bool) : List ListRow :=
  if fault then []
  else ((orderRows db.rows).take limit).map toListRow

/-- `search_links` (src/database.py, lines 90–110):
`SELECT id, description, timestamp FROM file_board WHERE description LIKE ?
ORDER BY timestamp DESC LIMIT ?` with pattern `f"%{query}%"`;
on `sqlite3.Error` it returns the empty list. -/
def search_links (db : DB) (query : String) (limit : Nat) (fault : Bool) : List ListRow :=
  if fault then []
  else ((orderRows (db.rows.filter
          (fun r => sqlLike (search_term query) r.description))).take limit).map toListRow

/-- `get_link_by_id` (src/database.py, lines 112–127):
`SELECT id, description, terabox_link FROM file_board WHERE id = ?` with
`fetchone`; returns `None` when no row matches and also on `sqlite3.Error`. -/
def get_link_by_id (db : DB) (link_id : Nat) (fault : Bool) : Option DetailRow :=
  if fault then none
  else (db.rows.find? (fun r => r.id == link_id)).map
        (fun r => ⟨r.id, r.description, r.terabox_link⟩)

/-- `VIDEO_EXTENSIONS` (src/terabox_utils.py, line 39). -/
def VIDEO_EXTENSIONS : List String := [".mp4", ".mkv", ".avi", ".mov", ".webm", ".flv"]

/-- The dictionary returned by a successful `get_terabox_link`: the key
`download_link` is always present, `stream_link` optionally. -/
structure ResolveResult where
  download_link : String
  stream_link : Option String
deriving DecidableEq

/-- The exceptions the `try` block of `get_terabox_link` can surface:
`requests.exceptions.RequestException` and any other `Exception`. -/
inductive PyExn where
  | requestException (msg : String)
  | otherException (msg : String)
deriving DecidableEq

/-- Python `str.lower()` restricted to the ASCII range (all strings involved
here are ASCII). -/
def pyLower (s : String) : String := ⟨s.data.map Char.toLower⟩

/-- Python `str.endswith(suffix)`. -/
def pyEndsWith (s suffix : String) : Bool := suffix.data.isSuffixOf s.data

/-- The fabricated download URL (src/terabox_utils.py, line 73):
`f"https://mock-download.terabox-cdn.com/some/path/file_\x7bint(time.time())\x7d.zip?token=abc"`
where `t` is the wall-clock second at the time of the call. -/
def mock_direct_link (t : Nat) : String :=
  "https://mock-download.terabox-cdn.com/some/path/file_" ++ toString t ++ ".zip?token=abc"

/-- The body of the `try` block of `get_terabox_link` (src/terabox_utils.py,
lines 61–102): builds the mock link, tests it against `VIDEO_EXTENSIONS` with
`mock_direct_link.lower().endswith(ext)`, and returns the result dictionary
with `stream_link` present exactly when that test succeeds.  The body of the
placeholder is pure, so it always returns `Except.ok`; the `Except` type
records where a raised exception would flow. -/
def get_terabox_link_body (terabox_url : String) (t : Nat) : Except PyExn ResolveResult :=
  let found_link := mock_direct_link t
  let is_video := VIDEO_EXTENSIONS.any (fun ext => pyEndsWith (pyLower found_link) ext)
  Except.ok { download_link := found_link
              stream_link := if is_video then some found_link else none }

/-- The `except` clauses of `get_terabox_link` (src/terabox_utils.py, lines
104–110): both `requests.exceptions.RequestException` and any other
`Exception` are caught and turned into the return value `None`. -/
def runResolve : Except PyExn ResolveResult → Option ResolveResult
  | Except.ok r => some r
  | Except.error _ => none

/-- `get_terabox_link` (src/terabox_utils.py, lines 41–110): the `try` body
wrapped in the exception handlers. -/
def get_terabox_link (terabox_url : String) (t : Nat) : Option ResolveResult :=
  runResolve (get_terabox_link_body terabox_url t)

/-- Modelled from the spec: "records whose `description` contains `substring`
as a case-insensitive substring" (§4.4 Search).  `containsCI s sub` holds when
`sub` is a substring of `s` up to ASCII case. -/
def containsCI (s sub : String) : Bool :=
  (s.data.map Char.toLower).tails.any (fun t => (sub.data.map Char.toLower).isPrefixOf t)

/-- Does the query avoid the SQL `LIKE` wildcard characters `%` and `_`? -/
def noWildcards (q : String) : Bool := q.data.all (fun c => !(c == '%' || c == '_'))

theorem likeChars_percent (ps s : List Char) :
    likeChars ('%' :: ps) s = s.tails.any (fun t => likeChars ps t) := by
  simp [likeChars]

theorem likeChars_cons_nil (p : Char) (hp : p ≠ '%') (ps : List Char) :
    likeChars (p :: ps) [] = false := by
  simp [likeChars, hp]

theorem likeChars_cons_cons (p : Char) (hp : p ≠ '%') (ps : List Char) (c : Char)
    (cs : List Char) :
    likeChars (p :: ps) (c :: cs)
      = ((if p = '_' then true else p.toLower == c.toLower) && likeChars ps cs) := by
  simp [likeChars, hp]

/-- A wildcard-free pattern followed by `%` matches exactly the strings whose
case-folding starts with the case-folded pattern. -/
theorem likeChars_literal_percent (q : List Char)
    (hq : ∀ c ∈ q, c ≠ '%' ∧ c ≠ '_') (s : List Char) :
    likeChars (q ++ ['%']) s
      = (q.map Char.toLower).isPrefixOf (s.map Char.toLower) := by
  induction q generalizing s with
  | nil =>
    rw [List.nil_append]
    have h1 : (s.tails.any (fun t => likeChars [] t)) = true :=
      List.any_eq_true.mpr ⟨[], (List.mem_tails _ _).mpr List.nil_suffix, rfl⟩
    rw [likeChars_percent, h1]
    simp [List.isPrefixOf_nil_left]
  | cons a q ih =>
    have ha := hq a (List.mem_cons_self a q)
    have hq' : ∀ c ∈ q, c ≠ '%' ∧ c ≠ '_' := fun c hc => hq c (List.mem_cons_of_mem a hc)
    cases s with
    | nil =>
      rw [List.cons_append, likeChars_cons_nil a ha.1]
      rfl
    | cons c cs =>
      rw [List.cons_append, likeChars_cons_cons a ha.1, if_neg ha.2, ih hq' cs]
      rfl

/-- For a query free of `%` and `_`, the pattern `f"%{query}%"` used by
`search_links` matches a description exactly when the description contains the
query as a case-insensitive substring. -/
theorem sqlLike_search_term (q s : String) (hn : noWildcards q = true) :
    sqlLike (search_term q) s = containsCI s q := by
  have hq : ∀ c ∈ q.data, c ≠ '%' ∧ c ≠ '_' := by
    intro c hc
    have hc2 := List.all_eq_true.mp hn c hc
    constructor <;> intro h <;> subst h <;> simp at hc2
  have hdata : (search_term q).data = '%' :: (q.data ++ ['%']) := by
    simp [search_term, String.data_append]
  rw [sqlLike, hdata, likeChars_percent, containsCI]
  refine Bool.eq_iff_iff.mpr ?_
  rw [List.any_eq_true, List.any_eq_true]
  constructor
  · rintro ⟨t, ht, hlt⟩
    refine ⟨t.map Char.toLower, ?_, ?_⟩
    · exact (List.mem_tails _ _).mpr (((List.mem_tails _ _).mp ht).map Char.toLower)
    · rw [likeChars_literal_percent q.data hq t] at hlt
      exact hlt
  · rintro ⟨u, hu, hpu⟩
    obtain ⟨v, hv⟩ := (List.mem_tails _ _).mp hu
    obtain ⟨l₁, l₂, hsplit, hmap1, hmap2⟩ := List.map_eq_append_iff.mp hv.symm
    refine ⟨l₂, (List.mem_tails _ _).mpr ⟨l₁, hsplit.symm⟩, ?_⟩
    rw [likeChars_literal_percent q.data hq l₂, hmap2]
    exact hpu

/-- `search_links` with `fault = false`, unfolded. -/
theorem search_links_eq (db : DB) (q : String) (lim : Nat) :
    search_links db q lim false
      = ((orderRows (db.rows.filter
            (fun r => sqlLike (search_term q) r.description))).take lim).map toListRow := rfl

/-- C2 counterexample: exact-containment semantics fails for query strings
containing `%` — searching for the literal query `"%"` on a store whose only
record has description `"abc"` returns that record, although `"abc"` does not
contain `"%"` as a substring (case-insensitively or otherwise): SQL `LIKE`
treats `%` as a wildcard. -/
theorem search_wildcard_cex :
    search_links ⟨[⟨1, 10, 20, "abc", "L1", 5⟩], 2⟩ "%" 20 false = [⟨1, "abc", 5⟩]
    ∧ containsCI "abc" "%" = false := by
  decide

/-- C2 (amended): `search_links` returns at most `limit` rows, ordered by
`timestamp` descending, each the projection of a stored record whose
description matches the SQL `LIKE` pattern `f"%{query}%"` (where `%` and `_`
in the query act as wildcards and ASCII letters compare case-insensitively);
when the query contains no wildcard character and the store holds at most
`limit` matching records, the result consists of exactly the records whose
description contains the query as a case-insensitive substring. -/
theorem search_links_spec (db : DB) (q : String) (lim : Nat) :
    (search_links db q lim false).length ≤ lim
    ∧ (search_links db q lim false).Pairwise (fun a b => b.timestamp ≤ a.timestamp)
    ∧ (∀ row ∈ search_links db q lim false, ∃ r ∈ db.rows,
        sqlLike (search_term q) r.description = true ∧ row = toListRow r)
    ∧ (noWildcards q = true →
        (db.rows.filter (fun r => sqlLike (search_term q) r.description)).length ≤ lim →
        ∀ row, row ∈ search_links db q lim false
          ↔ ∃ r ∈ db.rows, containsCI r.description q = true ∧ row = toListRow r) := by
  refine ⟨?_, ?_, ?_, ?_⟩
  · rw [search_links_eq, List.length_map, List.length_take]
    exact min_le_left _ _
  · rw [search_links_eq]
    exact List.pairwise_map.mpr
      ((List.sorted_insertionSort tsGE _).sublist (List.take_sublist _ _))
  · intro row hrow
    rw [search_links_eq] at hrow
    obtain ⟨r, hr, hrr⟩ := List.mem_map.mp hrow
    have hr2 := (List.take_sublist _ _).subset hr
    have hr3 := (List.perm_insertionSort tsGE _).subset hr2
    rcases List.mem_filter.mp hr3 with ⟨hmem, hpred⟩
    exact ⟨r, hmem, hpred, hrr.symm⟩
  · intro hn hcap row
    rw [search_links_eq]
    have hperm := List.perm_insertionSort tsGE
      (db.rows.filter (fun r => sqlLike (search_term q) r.description))
    have hlen : (orderRows (db.rows.filter
        (fun r => sqlLike (search_term q) r.description))).length ≤ lim := by
      rw [orderRows, hperm.length_eq]
      exact hcap
    rw [List.take_of_length_le hlen]
    constructor
    · intro hrow
      obtain ⟨r, hr, hrr⟩ := List.mem_map.mp hrow
      rcases List.mem_filter.mp (hperm.subset hr) with ⟨hmem, hpred⟩
      rw [sqlLike_search_term _ _ hn] at hpred
      exact ⟨r, hmem, hpred, hrr.symm⟩
    · rintro ⟨r, hmem, hcont, hrr⟩
      refine List.mem_map.mpr ⟨r, ?_, hrr.symm⟩
      refine hperm.mem_iff.mpr (List.mem_filter.mpr ⟨hmem, ?_⟩)
      rw [sqlLike_search_term _ _ hn]
      exact hcont

/-- Witness for `search_links_spec`: the spec's own example — descriptions
"My Awesome Movie", "Other File", "movie night"; searching "movie" returns the
first and third and not the second. -/
theorem search_links_spec_witness :
    ((⟨3, "movie night", 3⟩ : ListRow)
        ∈ search_links ⟨[⟨1, 1, 1, "My Awesome Movie", "A", 1⟩,
            ⟨2, 1, 1, "Other File", "B", 2⟩, ⟨3, 1, 1, "movie night", "C", 3⟩], 4⟩
            "movie" 20 false)
    ∧ ¬ ((⟨2, "Other File", 2⟩ : ListRow)
        ∈ search_links ⟨[⟨1, 1, 1, "My Awesome Movie", "A", 1⟩,
            ⟨2, 1, 1, "Other File", "B", 2⟩, ⟨3, 1, 1, "movie night", "C", 3⟩], 4⟩
            "movie" 20 false) := by
  constructor
  · exact ((search_links_spec ⟨[⟨1, 1, 1, "My Awesome Movie", "A", 1⟩,
      ⟨2, 1, 1, "Other File", "B", 2⟩, ⟨3, 1, 1, "movie night", "C", 3⟩], 4⟩
      "movie" 20).2.2.2 (by decide) (by decide) ⟨3, "movie night", 3⟩).mpr
      ⟨⟨3, 1, 1, "movie night", "C", 3⟩, by decide, by decide, rfl⟩
  · intro hmem
    obtain ⟨r, hr, hcont, hrow⟩ := ((search_links_spec ⟨[⟨1, 1, 1, "My Awesome Movie", "A", 1⟩,
      ⟨2, 1, 1, "Other File", "B", 2⟩, ⟨3, 1, 1, "movie night", "C", 3⟩], 4⟩
      "movie" 20).2.2.2 (by decide) (by decide) ⟨2, "Other File", 2⟩).mp hmem
    fin_cases hr
    · exact absurd hrow (by decide)
    · exact absurd hcont (by decide)
    · exact absurd hrow (by decide)

/-- C1 counterexample: the insert operation does not let the caller
distinguish a duplicate `sourceLink` from a storage fault — on a store already
holding `terabox_link = "L"`, inserting `"L"` again (duplicate, no fault)
produces exactly the same outcome as a storage fault, namely
`(false, unchanged db)`; and the successful outcome is the boolean `true`,
not the assigned record id. -/
theorem add_link_duplicate_indistinct_from_fault :
    add_link ⟨[⟨1, 10, 20, "d", "L", 0⟩], 2⟩ 2 2 "d2" "L" 7 false
      = add_link ⟨[⟨1, 10, 20, "d", "L", 0⟩], 2⟩ 2 2 "d2" "L" 7 true := by
  decide

/-- C1 (amended): `add_link` returns `True` on a successful insert (the new
row gets the next autoincrement id and is appended), and returns `False` both
when the `sourceLink` already exists and on any other persistence fault, so
the two failure causes are not distinguishable from the return value. -/
theorem add_link_bool_outcomes (db : DB) (u c : Int) (d link : String) (now : Nat) :
    (add_link db u c d link now true).1 = false
    ∧ (db.rows.any (fun r => r.terabox_link == link) = true →
        add_link db u c d link now false = (false, db))
    ∧ (db.rows.any (fun r => r.terabox_link == link) = false →
        add_link db u c d link now false
          = (true, ⟨db.rows ++ [⟨db.nextId, u, c, d, link, now⟩], db.nextId + 1⟩)) := by
  refine ⟨rfl, fun h => ?_, fun h => ?_⟩ <;> simp [add_link, h]

/-- Witness for `add_link_bool_outcomes` at a concrete store. -/
theorem add_link_bool_outcomes_witness :
    add_link ⟨[⟨1, 10, 20, "d", "L", 0⟩], 2⟩ 2 2 "d2" "L" 7 false
        = (false, ⟨[⟨1, 10, 20, "d", "L", 0⟩], 2⟩)
    ∧ add_link ⟨[], 1⟩ 2 2 "d2" "L" 7 false = (true, ⟨[⟨1, 2, 2, "d2", "L", 7⟩], 2⟩) := by
  constructor
  · exact (add_link_bool_outcomes ⟨[⟨1, 10, 20, "d", "L", 0⟩], 2⟩ 2 2 "d2" "L" 7).2.1
      (by decide)
  · exact (add_link_bool_outcomes ⟨[], 1⟩ 2 2 "d2" "L" 7).2.2 (by decide)

/-- C5: inserting a record whose `sourceLink` equals the `sourceLink` of an
existing record fails (returns `False`), leaves the store state — and hence
the record count and every existing record — unchanged, and terminates
normally (the embedding is a total function: `sqlite3.IntegrityError` is
caught inside `add_link`, so no exception reaches the caller). -/
theorem add_link_duplicate_no_mutation (db : DB) (u c : Int) (d link : String) (now : Nat)
    (hdup : ∃ r ∈ db.rows, r.terabox_link = link) :
    add_link db u c d link now false = (false, db)
    ∧ ((add_link db u c d link now false).2).rows.length = db.rows.length := by
  obtain ⟨r, hr, hlink⟩ := hdup
  have hany : db.rows.any (fun x => x.terabox_link == link) = true := by
    rw [List.any_eq_true]
    exact ⟨r, hr, by simp [hlink]⟩
  constructor
  · simp [add_link, hany]
  · simp [add_link, hany]

/-- Witness for `add_link_duplicate_no_mutation` at a concrete store. -/
theorem add_link_duplicate_no_mutation_witness :
    add_link ⟨[⟨1, 10, 20, "d", "L", 0⟩], 2⟩ 2 2 "d2" "L" 7 false
      = (false, ⟨[⟨1, 10, 20, "d", "L", 0⟩], 2⟩) := by
  exact (add_link_duplicate_no_mutation ⟨[⟨1, 10, 20, "d", "L", 0⟩], 2⟩ 2 2 "d2" "L" 7
    ⟨⟨1, 10, 20, "d", "L", 0⟩, by decide, rfl⟩).1

/-- C4 counterexample: a storage fault during `list_links`, `search_links` or
`get_link_by_id` on a non-empty store produces exactly the same value as the
fault-free operation on an empty store, so the caller cannot distinguish a
storage fault from a successful empty result or from "not found". -/
theorem storage_fault_indistinct :
    list_links ⟨[⟨1, 10, 20, "abc", "L1", 5⟩], 2⟩ 10 true = list_links ⟨[], 1⟩ 10 false
    ∧ search_links ⟨[⟨1, 10, 20, "abc", "L1", 5⟩], 2⟩ "abc" 10 true
        = search_links ⟨[], 1⟩ "abc" 10 false
    ∧ get_link_by_id ⟨[⟨1, 10, 20, "abc", "L1", 5⟩], 2⟩ 1 true
        = get_link_by_id ⟨[], 1⟩ 1 false := by
  decide

/-- C4 (amended): on a storage-layer fault, `list_links` and `search_links`
return the empty list and `get_link_by_id` returns `None` — the very values
that also signal a successful empty result and "not found", so storage faults
are swallowed, not reported distinguishably. -/
theorem storage_fault_collapses (db : DB) (q : String) (lim i : Nat) :
    list_links db lim true = ([] : List ListRow)
    ∧ search_links db q lim true = ([] : List ListRow)
    ∧ get_link_by_id db i true = none :=
  ⟨rfl, rfl, rfl⟩

/-- C8: the resolver never lets an exception escape: both exception classes
caught by `get_terabox_link` (`requests.exceptions.RequestException` and any
other `Exception`) are mapped to the return value `None`, and the function
returns a value on every input. -/
theorem resolver_catches_all_exceptions :
    (∀ e : PyExn, runResolve (Except.error e) = none)
    ∧ ∀ url t, ∃ r, get_terabox_link url t = some r := by
  constructor
  · intro e; rfl
  · intro url t; exact ⟨_, rfl⟩

/-- C9 counterexample: `get_terabox_link` is not a function of the share link
alone — called on the same link at clock seconds 0 and 1 it returns different
results, because the fabricated download URL embeds `int(time.time())`. -/
theorem resolve_depends_on_time :
    get_terabox_link "https://terabox.com/s/1x" 0
      ≠ get_terabox_link "https://terabox.com/s/1x" 1 := by
  decide

/-- Helper: `find?` on a list of records with pairwise-distinct ids returns
exactly the record carrying the sought id, when one is present. -/
theorem find?_id_unique (rows : List LinkRecord) (link_id : Nat)
    (huniq : rows.Pairwise (fun a b => a.id ≠ b.id))
    (r : LinkRecord) (hr : r ∈ rows) (hid : r.id = link_id) :
    rows.find? (fun x => x.id == link_id) = some r := by
  induction rows with
  | nil => cases hr
  | cons x xs ih =>
    rcases List.pairwise_cons.mp huniq with ⟨hx, hxs⟩
    rcases List.mem_cons.mp hr with h | h
    · subst h
      exact List.find?_cons_of_pos _ (by simp [hid])
    · have hxid : x.id ≠ link_id := by
        have hne := hx r h
        rwa [hid] at hne
      rw [List.find?_cons_of_neg _ (by simp [hxid])]
      exact ih hxs h

/-- C3 counterexample: `get_link_by_id` does not return the full stored
record — two stores whose only record differs in `user_id`, `chat_id` and
`timestamp` produce identical results, so the returned value cannot contain
those fields of the `LinkRecord`. -/
theorem get_link_by_id_drops_fields :
    get_link_by_id ⟨[⟨1, 10, 20, "d", "L", 5⟩], 2⟩ 1 false
      = get_link_by_id ⟨[⟨1, 99, 77, "d", "L", 9⟩], 2⟩ 1 false
    ∧ (⟨[⟨1, 10, 20, "d", "L", 5⟩], 2⟩ : DB) ≠ ⟨[⟨1, 99, 77, "d", "L", 9⟩], 2⟩ := by
  decide

/-- C3 (amended): on a store with pairwise-distinct ids, `get_link_by_id`
returns the projection `(id, description, sourceLink)` of the stored record
when a record with the requested id exists — including `sourceLink`, but not
`user_id`, `chat_id` or `timestamp` — and returns `None`, never a fault, when
no record with that id exists (the embedding is a total function). -/
theorem get_link_by_id_spec (db : DB) (link_id : Nat)
    (huniq : db.rows.Pairwise (fun a b => a.id ≠ b.id)) :
    (∀ r ∈ db.rows, r.id = link_id →
        get_link_by_id db link_id false = some ⟨r.id, r.description, r.terabox_link⟩)
    ∧ ((∀ r ∈ db.rows, r.id ≠ link_id) → get_link_by_id db link_id false = none) := by
  constructor
  · intro r hr hid
    show (db.rows.find? (fun x => x.id == link_id)).map _ = _
    rw [find?_id_unique db.rows link_id huniq r hr hid]
    rfl
  · intro hnone
    show (db.rows.find? (fun x => x.id == link_id)).map _ = _
    rw [List.find?_eq_none.mpr (fun x hx => by simp [hnone x hx])]
    rfl

/-- Witness for `get_link_by_id_spec`: both branches at a concrete store. -/
theorem get_link_by_id_spec_witness :
    get_link_by_id ⟨[⟨1, 10, 20, "d", "L", 5⟩], 2⟩ 1 false = some ⟨1, "d", "L"⟩
    ∧ get_link_by_id ⟨[⟨1, 10, 20, "d", "L", 5⟩], 2⟩ 2 false = none := by
  constructor
  · exact (get_link_by_id_spec ⟨[⟨1, 10, 20, "d", "L", 5⟩], 2⟩ 1 (by decide)).1
      ⟨1, 10, 20, "d", "L", 5⟩ (by decide) rfl
  · exact (get_link_by_id_spec ⟨[⟨1, 10, 20, "d", "L", 5⟩], 2⟩ 2 (by decide)).2
      (by decide)

/-- C6: `list_links` returns at most `limit` records, ordered by `timestamp`
descending (each record's timestamp is at least that of every later one, so
with distinct timestamps the most recent is first), and returns the empty
list — not an error — when the store has no records. -/
theorem list_links_spec (db : DB) (limit : Nat) :
    (list_links db limit false).length ≤ limit
    ∧ (list_links db limit false).Pairwise (fun a b => b.timestamp ≤ a.timestamp)
    ∧ (db.rows = [] → list_links db limit false = []) := by
  refine ⟨?_, ?_, ?_⟩
  · show (((orderRows db.rows).take limit).map toListRow).length ≤ limit
    rw [List.length_map, List.length_take]
    exact min_le_left _ _
  · show (((orderRows db.rows).take limit).map toListRow).Pairwise _
    have hs : List.Pairwise tsGE (orderRows db.rows) :=
      List.sorted_insertionSort tsGE db.rows
    have ht : List.Pairwise tsGE ((orderRows db.rows).take limit) :=
      hs.sublist (List.take_sublist _ _)
    exact List.pairwise_map.mpr ht
  · intro h
    show (((orderRows db.rows).take limit).map toListRow) = []
    rw [h]
    simp [orderRows, List.insertionSort]

/-- Witness for `list_links_spec`: empty store yields the empty list. -/
theorem list_links_spec_witness : list_links ⟨[], 1⟩ 5 false = [] :=
  (list_links_spec ⟨[], 1⟩ 5).2.2 rfl

/-- C9 (amended): at any fixed clock second the resolver is deterministic —
indeed its result does not depend on the share link at all, only on the time
of the call (and it mutates no state: the embedding threads none). -/
theorem resolve_fixed_time_deterministic (u₁ u₂ : String) (t : Nat) :
    get_terabox_link u₁ t = get_terabox_link u₂ t := rfl

/-- Helper: the character data of the fabricated URL splits off the literal
tail `".zip?token=abc"`. -/
theorem data_mock (t : Nat) :
    (mock_direct_link t).data
      = ("https://mock-download.terabox-cdn.com/some/path/file_" ++ toString t).data
          ++ (".zip?token=abc").data := by
  simp [mock_direct_link, String.data_append]

/-- Helper: lowercasing the fabricated URL leaves its literal tail intact. -/
theorem pyLower_mock_eq (t : Nat) :
    (pyLower (mock_direct_link t)).data
      = (("https://mock-download.terabox-cdn.com/some/path/file_"
            ++ toString t).data).map Char.toLower
          ++ (".zip?token=abc").data := by
  show ((mock_direct_link t).data).map Char.toLower = _
  rw [data_mock, List.map_append]
  congr 1

/-- Helper: a suffix of `a ++ b` no longer than `b` is a suffix of `b`. -/
theorem suffix_of_append_right {e a b : List Char} (h : e <:+ a ++ b)
    (hlen : e.length ≤ b.length) : e <:+ b := by
  rcases List.suffix_or_suffix_of_suffix h (List.suffix_append a b) with h1 | h1
  · exact h1
  · exact (h1.eq_of_length_le hlen) ▸ List.suffix_refl e

/-- Helper: the fabricated URL never ends in a video extension — its last 14
characters are always `".zip?token=abc"`, and every entry of
`VIDEO_EXTENSIONS` is both shorter than 14 characters and not a suffix of that
tail. -/
theorem mock_not_video (t : Nat) :
    VIDEO_EXTENSIONS.any
      (fun ext => pyEndsWith (pyLower (mock_direct_link t)) ext) = false := by
  rw [List.any_eq_false]
  intro ext hext
  fin_cases hext <;>
  · intro hcon
    simp only [pyEndsWith, List.isSuffixOf_iff_suffix] at hcon
    rw [pyLower_mock_eq] at hcon
    have hs := suffix_of_append_right hcon (by decide)
    exact absurd hs (by decide)

/-- C7: whenever `get_terabox_link` succeeds, the result carries a
`stream_link` exactly when the resolved download URL, lowercased, ends in one
of the recognized `VIDEO_EXTENSIONS`; and whenever a `stream_link` is present
it equals the `download_link`. -/
theorem stream_link_iff_video (url : String) (t : Nat) (r : ResolveResult)
    (h : get_terabox_link url t = some r) :
    (r.stream_link.isSome = true
        ↔ VIDEO_EXTENSIONS.any (fun ext => pyEndsWith (pyLower r.download_link) ext) = true)
    ∧ (∀ s, r.stream_link = some s → s = r.download_link) := by
  have hr : r = { download_link := mock_direct_link t
                  stream_link :=
                    if VIDEO_EXTENSIONS.any
                        (fun ext => pyEndsWith (pyLower (mock_direct_link t)) ext)
                    then some (mock_direct_link t) else none } := by
    have h2 := h.symm
    rw [get_terabox_link, get_terabox_link_body, runResolve] at h2
    exact Option.some.inj h2.symm |>.symm
  have hdl : r.download_link = mock_direct_link t := by rw [hr]
  have hsl : r.stream_link
      = if VIDEO_EXTENSIONS.any (fun ext => pyEndsWith (pyLower (mock_direct_link t)) ext)
        then some (mock_direct_link t) else none := by rw [hr]
  rw [hdl, hsl]
  cases hv : VIDEO_EXTENSIONS.any
      (fun ext => pyEndsWith (pyLower (mock_direct_link t)) ext)
  · simp
  · simp

/-- Witness for `stream_link_iff_video` at clock second 0. -/
theorem stream_link_iff_video_witness :
    (none : Option String).isSome = true
      ↔ VIDEO_EXTENSIONS.any
          (fun ext => pyEndsWith (pyLower (mock_direct_link 0)) ext) = true :=
  (stream_link_iff_video "https://terabox.com/s/1x" 0
    ⟨mock_direct_link 0, none⟩ (by decide)).1

/-- C10: every call to `get_terabox_link` succeeds, the result always carries
a non-empty `download_link`, and — because the fabricated URL always ends in
`".zip?token=abc"`, which matches no recognized video extension — the result
never carries a `stream_link`. -/
theorem resolve_download_nonempty_stream_absent (url : String) (t : Nat) :
    ∃ r, get_terabox_link url t = some r
      ∧ r.download_link ≠ "" ∧ r.stream_link = none := by
  refine ⟨⟨mock_direct_link t, none⟩, ?_, ?_, rfl⟩
  · rw [get_terabox_link, get_terabox_link_body, runResolve]
    rw [mock_not_video t]
    rfl
  · intro hcon
    have hcon2 : mock_direct_link t = "" := hcon
    have hdat : (mock_direct_link t).data = [] := by rw [hcon2]
    rw [data_mock] at hdat
    rcases List.append_eq_nil.mp hdat with ⟨-, h2⟩
    exact absurd h2 (by decide)

end Terbox
